import Mathlib

set_option maxRecDepth 10000
set_option linter.unusedVariables false

/-!
Shallow embedding of `src/hardware/blob_detection/blob_detection.cpp`.

The source is a Vivado HLS module.  The numeric type is
`ap_fixed<LOG_NUM_BITS, LOG_INTEGER_BITS>` = `ap_fixed<16, 2>`: a signed
fixed-point number of total width 16 bits, 2 of which (including the sign
bit) are integer bits, hence 14 fractional bits; range `[-2, 2)`,
resolution `2^-14`.  The Xilinx defaults apply: quantization `AP_TRN`
(truncation toward minus infinity, i.e. floor) and overflow `AP_WRAP`
(two's-complement wrap-around).  We embed such a value by its underlying
scaled integer (the real value times `2^14`), so construction from a
decimal literal `m / 10^4` is `⌊(m / 10^4) * 2^14⌋` and addition wraps
into `[-2^15, 2^15)`.  Every decimal literal of the source (`-0.0239`,
..., `0.3182`, `0.490`) has at most 4 decimal digits, so we carry each as
its integer numerator over `10^4`; the floor is then the floor division
`(m * 2^14) / 10^4` (see `fixOfLitBits_eq_floor` for the proof that this
is the real-valued floor).
-/

/-- Source constant `BLOB_FILTER_HEIGHT` (from `blob_detection.h`, fixed at 5
by the 5x5 kernel table in the source). -/
def BLOB_FILTER_HEIGHT : Nat := 5

/-- Source constant `BLOB_FILTER_WIDTH`. -/
def BLOB_FILTER_WIDTH : Nat := 5

/-- Source constant `LOG_NUM_BITS`: the first template argument of
`ap_fixed`, which in `ap_fixed<W, I>` is the TOTAL width `W` in bits. -/
def LOG_NUM_BITS : Nat := 16

/-- Source constant `LOG_INTEGER_BITS`: the second template argument of
`ap_fixed`, the number of integer bits `I` (sign included). -/
def LOG_INTEGER_BITS : Nat := 2

/-- The number of fractional bits of `ap_fixed<W, I>` is `W - I`. -/
def LOG_FRACTIONAL_ACTUAL : Nat := LOG_NUM_BITS - LOG_INTEGER_BITS

/-- Quantization of a real (rational) value to a fixed-point value with
`n` fractional bits, returned as the underlying scaled integer.  This is
`AP_TRN`, the `ap_fixed` default: truncation toward minus infinity. -/
def fixOfRatBits (n : Nat) (x : ℚ) : Int := ⌊x * 2 ^ n⌋

/-- Quantization of the decimal literal `m / 10^4` to `n` fractional
bits, computed by integer floor division (`Int` division by a positive
divisor rounds toward minus infinity). -/
def fixOfLitBits (n : Nat) (m : Int) : Int := m * 2 ^ n / 10 ^ 4

/-- Quantization of the decimal literal `m / 10^4` at the fractional
precision of `log_response_t` (`ap_fixed<16,2>`, hence 14 fractional
bits). -/
def fixOfLit (m : Int) : Int := fixOfLitBits LOG_FRACTIONAL_ACTUAL m

/-- The integer floor division agrees with the real-valued `AP_TRN`
quantization of the decimal literal `m / 10^4`. -/
lemma fixOfLitBits_eq_floor (n : Nat) (m : Int) :
    fixOfLitBits n m = fixOfRatBits n ((m : ℚ) / 10 ^ 4) := by
  have h : ((m : ℚ) / 10 ^ 4) * 2 ^ n = ((m * 2 ^ n : Int) : ℚ) / ((10 ^ 4 : ℕ) : ℚ) := by
    push_cast
    ring
  unfold fixOfRatBits fixOfLitBits
  rw [h, Rat.floor_intCast_div_natCast]
  norm_num

/-- Wrap a scaled integer into the representable range of
`log_response_t`, i.e. `[-2^15, 2^15)` (value range `[-2, 2)`), as the
`AP_WRAP` overflow mode does. -/
def fixWrap (x : Int) : Int := (x + 2 ^ 15) % 2 ^ 16 - 2 ^ 15

/-- Fixed-point addition of two `log_response_t` values (scaled-integer
addition followed by the `AP_WRAP` wrap). -/
def fixAdd (a b : Int) : Int := fixWrap (a + b)

/-- Source constant `LOG_RESPONSE_THRESHOLD = 0.490 * 1.0` (the literal
`0.4900`), quantized to `log_response_t`. -/
def LOG_RESPONSE_THRESHOLD : Int := fixOfLit 4900

/-- The decimal literals of the source table `LOG_FILTER`, row-major,
carried as numerators over `10^4`: row 0 is
`{-0.0239, -0.0460, -0.0499, -0.0460, -0.0239}`, and so on. -/
def LOG_FILTER_LITS : Fin 5 → Fin 5 → Int :=
  ![![-239, -460, -499, -460, -239],
    ![-460,  -61,  923,  -61, -460],
    ![-499,  923, 3182,  923, -499],
    ![-460,  -61,  923,  -61, -460],
    ![-239, -460, -499, -460, -239]]

/-- Source constant `LOG_FILTER`: the 5x5 LoG kernel, each entry quantized
to `log_response_t` (scaled integer). -/
def LOG_FILTER (i j : Fin 5) : Int := fixOfLit (LOG_FILTER_LITS i j)

/-- A `monochrome_window_t`: a 5x5 matrix of monochrome (1-bit) pixels.
The C++ type is a fixed-size 5x5 array, so the dimensions are carried by
the type. -/
def Window : Type := Fin 5 → Fin 5 → Bool

/-- The C++ indexing `window[row][col]` with `int` indices: in bounds it
reads the pixel, out of bounds it is undefined behavior, modelled as
`none`. -/
def winGet (w : Window) (r c : Int) : Option Bool :=
  if hr : 0 ≤ r ∧ r < 5 then
    if hc : 0 ≤ c ∧ c < 5 then
      some (w ⟨r.toNat, by omega⟩ ⟨c.toNat, by omega⟩)
    else none
  else none

/-- The source's wrapped index computation, one conditional subtraction:
`row = (start_row + i < BLOB_FILTER_HEIGHT) ? start_row + i
     : start_row + i - BLOB_FILTER_HEIGHT` (and likewise for columns,
with `BLOB_FILTER_WIDTH = BLOB_FILTER_HEIGHT = 5`). -/
def tapRow (start : Int) (i : Fin 5) : Int :=
  if start + (i : Int) < 5 then start + (i : Int) else start + (i : Int) - 5

/-- One iteration of the source's inner loop body, threading the `none`
of an out-of-bounds window access: look up `window[row][col]` and, if the
pixel is set, accumulate the kernel weight into the response with
fixed-point addition. -/
def blobStep (w : Window) (sr sc : Int) (acc : Option Int)
    (t : Fin 5 × Fin 5) : Option Int :=
  acc.bind fun response =>
    (winGet w (tapRow sr t.1) (tapRow sc t.2)).map fun px =>
      if px then fixAdd response (LOG_FILTER t.1 t.2) else response

/-- The kernel tap indices `(i, j)` in the order the two nested source
loops visit them (row-major). -/
def blobTaps : List (Fin 5 × Fin 5) :=
  (List.finRange 5).flatMap fun i => (List.finRange 5).map fun j => (i, j)

/-- Source function `compute_blob_detection`: fold the loop body over all
25 taps starting from `response = 0`, then threshold:
`return response >= LOG_RESPONSE_THRESHOLD`.  `none` means the run hit
undefined behavior (an out-of-bounds window access). -/
def compute_blob_detection (w : Window) (start_row start_col : Int) :
    Option Bool :=
  (blobTaps.foldl (blobStep w start_row start_col) (some 0)).map
    fun response => decide (LOG_RESPONSE_THRESHOLD ≤ response)

/-- The true modulo index `(start + i) mod 5`, as a `Fin 5`. -/
def modIdx (start : Int) (i : Fin 5) : Fin 5 :=
  ⟨((start + (i : Int)) % 5).toNat, by omega⟩

/-- The contribution of tap `(i, j)`: the kernel weight if the wrapped
window pixel is set, else 0. -/
def tapTerm (w : Window) (sr sc : Int) (t : Fin 5 × Fin 5) : Int :=
  if w (modIdx sr t.1) (modIdx sc t.2) then LOG_FILTER t.1 t.2 else 0

/-- The mathematical LoG response: the sum, over the taps `(i, j)` whose
wrapped window pixel `window[(sr+i) mod 5][(sc+j) mod 5]` is set, of the
kernel weights `LOG_FILTER i j` (as exact integer arithmetic on the
scaled values). -/
def responseSum (w : Window) (sr sc : Int) : Int :=
  (blobTaps.map (tapTerm w sr sc)).sum

/-! ### Basic lemmas about the wrapped indexing -/

/-- Under the loop preconditions the single conditional subtraction is the
true modulo. -/
lemma tapRow_eq_mod (s : Int) (hs0 : 0 ≤ s) (hs5 : s < 5) (i : Fin 5) :
    tapRow s i = (s + (i : Int)) % 5 := by
  have hi : (i : Int) < 5 := by exact_mod_cast i.isLt
  have hi0 : 0 ≤ (i : Int) := by exact_mod_cast Nat.zero_le i.val
  unfold tapRow
  split <;> omega

/-- Under the loop preconditions the computed index is in bounds. -/
lemma tapRow_bounds (s : Int) (hs0 : 0 ≤ s) (hs5 : s < 5) (i : Fin 5) :
    0 ≤ tapRow s i ∧ tapRow s i < 5 := by
  have hi : (i : Int) < 5 := by exact_mod_cast i.isLt
  have hi0 : 0 ≤ (i : Int) := by exact_mod_cast Nat.zero_le i.val
  unfold tapRow
  split <;> omega

/-- Under the loop preconditions the window access hits the pixel at the
modulo coordinates: the out-of-bounds branch is not taken. -/
lemma winGet_tapRow (w : Window) (sr sc : Int)
    (hsr : 0 ≤ sr ∧ sr < 5) (hsc : 0 ≤ sc ∧ sc < 5) (i j : Fin 5) :
    winGet w (tapRow sr i) (tapRow sc j) =
      some (w (modIdx sr i) (modIdx sc j)) := by
  have hr := tapRow_bounds sr hsr.1 hsr.2 i
  have hc := tapRow_bounds sc hsc.1 hsc.2 j
  have hrm := tapRow_eq_mod sr hsr.1 hsr.2 i
  have hcm := tapRow_eq_mod sc hsc.1 hsc.2 j
  unfold winGet
  rw [dif_pos hr]
  rw [dif_pos hc]
  have h1 : (⟨(tapRow sr i).toNat, by omega⟩ : Fin 5) = modIdx sr i := by
    apply Fin.ext
    show (tapRow sr i).toNat = ((sr + (i : Int)) % 5).toNat
    omega
  have h2 : (⟨(tapRow sc j).toNat, by omega⟩ : Fin 5) = modIdx sc j := by
    apply Fin.ext
    show (tapRow sc j).toNat = ((sc + (j : Int)) % 5).toNat
    omega
  rw [h1, h2]

/-- `modIdx s` is injective: distinct kernel indices read distinct window
pixels. -/
lemma modIdx_inj (s : Int) (a b : Fin 5) (h : modIdx s a = modIdx s b) :
    a = b := by
  have ha : (a : ℕ) < 5 := a.isLt
  have hb : (b : ℕ) < 5 := b.isLt
  have hv : ((s + (a : Int)) % 5).toNat = ((s + (b : Int)) % 5).toNat :=
    congrArg Fin.val h
  apply Fin.ext
  omega

/-- `modIdx 0` is the identity. -/
lemma modIdx_zero (i : Fin 5) : modIdx 0 i = i := by
  apply Fin.ext
  show ((0 + (i : Int)) % 5).toNat = (i : ℕ)
  have : (i : Int) < 5 := by exact_mod_cast i.isLt
  omega

/-! ### The accumulation never wraps and equals the exact sum -/

/-- The `AP_WRAP` wrap is the identity on the representable range. -/
lemma fixWrap_eq_self (x : Int) (h1 : -(2 ^ 15) ≤ x) (h2 : x < 2 ^ 15) :
    fixWrap x = x := by
  unfold fixWrap
  omega

/-- Each tap contributes at most one kernel weight in magnitude. -/
lemma abs_tapTerm_le (w : Window) (sr sc : Int) (t : Fin 5 × Fin 5) :
    |tapTerm w sr sc t| ≤ |LOG_FILTER t.1 t.2| := by
  unfold tapTerm
  split
  · exact le_refl _
  · simp

/-- Triangle inequality for a mapped list sum. -/
lemma abs_listSum_le {α : Type} (f g : α → Int) (h : ∀ a, |f a| ≤ g a) :
    ∀ L : List α, |(L.map f).sum| ≤ (L.map g).sum := by
  intro L
  induction L with
  | nil => simp
  | cons a L ih =>
    simp only [List.map_cons, List.sum_cons]
    calc |f a + (L.map f).sum| ≤ |f a| + |(L.map f).sum| := abs_add _ _
      _ ≤ g a + (L.map g).sum := add_le_add (h a) ih

/-- A prefix sum of non-negative values is at most the full sum. -/
lemma take_sum_le {α : Type} (g : α → Int) (hg : ∀ a, 0 ≤ g a)
    (L : List α) (n : Nat) :
    ((L.take n).map g).sum ≤ (L.map g).sum := by
  conv_rhs => rw [← List.take_append_drop n L]
  rw [List.map_append, List.sum_append]
  have h0 : 0 ≤ ((L.drop n).map g).sum := by
    apply List.sum_nonneg
    intro x hx
    obtain ⟨a, _, rfl⟩ := List.mem_map.mp hx
    exact hg a
  linarith

/-- The sum of the magnitudes of all 25 kernel weights, in scaled-integer
units: `22533 = 1.37530... * 2^14`, safely inside the type range. -/
lemma kernel_abs_sum :
    (blobTaps.map fun t => |LOG_FILTER t.1 t.2|).sum = 22533 := by decide

/-- The magnitude of every partial response stays at most the total weight
magnitude. -/
lemma partial_sum_bound (w : Window) (sr sc : Int) (n : Nat) :
    |((blobTaps.take n).map (tapTerm w sr sc)).sum| ≤ 22533 := by
  calc |((blobTaps.take n).map (tapTerm w sr sc)).sum|
      ≤ ((blobTaps.take n).map fun t => |LOG_FILTER t.1 t.2|).sum :=
        abs_listSum_le _ _ (abs_tapTerm_le w sr sc) _
    _ ≤ (blobTaps.map fun t => |LOG_FILTER t.1 t.2|).sum :=
        take_sum_le _ (fun t => abs_nonneg _) _ _
    _ = 22533 := kernel_abs_sum

/-- One loop iteration under valid offsets: the step succeeds and adds the
exact tap contribution, with no wrap, as long as the accumulator leaves
room for one more weight. -/
lemma blobStep_some (w : Window) (sr sc : Int)
    (hsr : 0 ≤ sr ∧ sr < 5) (hsc : 0 ≤ sc ∧ sc < 5)
    (acc : Int) (t : Fin 5 × Fin 5)
    (hacc : |acc| + |LOG_FILTER t.1 t.2| ≤ 32767) :
    blobStep w sr sc (some acc) t = some (acc + tapTerm w sr sc t) := by
  have hw := winGet_tapRow w sr sc hsr hsc t.1 t.2
  unfold blobStep
  rw [hw]
  unfold tapTerm
  show some (if w (modIdx sr t.1) (modIdx sc t.2) then
    fixAdd acc (LOG_FILTER t.1 t.2) else acc) = _
  by_cases hp : w (modIdx sr t.1) (modIdx sc t.2)
  · rw [if_pos hp, if_pos hp]
    have habs : |acc + LOG_FILTER t.1 t.2| ≤ 32767 :=
      le_trans (abs_add _ _) hacc
    have hb := abs_le.mp habs
    unfold fixAdd
    rw [fixWrap_eq_self _ (by omega) (by omega)]
  · rw [if_neg hp, if_neg hp, add_zero]

/-- Folding the loop body over any list of taps, from a small enough
accumulator, succeeds and computes the exact sum of the contributions. -/
lemma foldl_blobStep_eq (w : Window) (sr sc : Int)
    (hsr : 0 ≤ sr ∧ sr < 5) (hsc : 0 ≤ sc ∧ sc < 5) :
    ∀ (L : List (Fin 5 × Fin 5)) (acc : Int),
      |acc| + (L.map fun t => |LOG_FILTER t.1 t.2|).sum ≤ 32767 →
      L.foldl (blobStep w sr sc) (some acc) =
        some (acc + (L.map (tapTerm w sr sc)).sum) := by
  intro L
  induction L with
  | nil =>
    intro acc _
    simp
  | cons t L ih =>
    intro acc h
    simp only [List.map_cons, List.sum_cons] at h
    have hLpos : 0 ≤ (L.map fun t => |LOG_FILTER t.1 t.2|).sum := by
      apply List.sum_nonneg
      intro x hx
      obtain ⟨a, _, rfl⟩ := List.mem_map.mp hx
      exact abs_nonneg _
    have hstep := blobStep_some w sr sc hsr hsc acc t (by linarith)
    rw [List.foldl_cons, hstep]
    have htt := abs_tapTerm_le w sr sc t
    have hih : |acc + tapTerm w sr sc t| +
        (L.map fun t => |LOG_FILTER t.1 t.2|).sum ≤ 32767 := by
      have := le_trans (abs_add acc (tapTerm w sr sc t))
        (add_le_add_left htt _)
      linarith
    rw [ih (acc + tapTerm w sr sc t) hih]
    simp only [List.map_cons, List.sum_cons]
    rw [add_assoc]

/-- Under valid offsets, `compute_blob_detection` succeeds and is the
threshold test of the exact response sum. -/
lemma compute_eq_responseSum (w : Window) (sr sc : Int)
    (hsr : 0 ≤ sr ∧ sr < 5) (hsc : 0 ≤ sc ∧ sc < 5) :
    compute_blob_detection w sr sc =
      some (decide (LOG_RESPONSE_THRESHOLD ≤ responseSum w sr sc)) := by
  unfold compute_blob_detection
  rw [foldl_blobStep_eq w sr sc hsr hsc blobTaps 0
    (by rw [kernel_abs_sum]; norm_num)]
  unfold responseSum
  rw [zero_add, Option.map_some']

/-! ### Concrete windows and the synthetic test image -/

/-- The all-ones 5x5 window. -/
def allOnesWindow : Window := fun _ _ => true

/-- The all-zeros 5x5 window. -/
def allZeroWindow : Window := fun _ _ => false

/-- The peak-match window: 1s exactly at the center and the four cross
positions (the positions of the most positive kernel weights), 0s
elsewhere. -/
def peakWindow : Window :=
  ![![false, false, false, false, false],
    ![false, false, true,  false, false],
    ![false, true,  true,  true,  false],
    ![false, false, true,  false, false],
    ![false, false, false, false, false]]

/-- Modelled from the spec: the synthetic 7x7 binary test image of the
end-to-end scenario, with one isolated 5x5 all-on square centered at
`(3,3)` (rows and columns 1 through 5 set) and zeros elsewhere. -/
def syntheticImage (r c : ℕ) : Bool :=
  decide (1 ≤ r ∧ r ≤ 5 ∧ 1 ≤ c ∧ c ≤ 5)

/-- Modelled from the spec: the WindowSource collaborator (its code,
`windowfetch.h`, is not under `src/`), which "for every pixel position in
the image, produces a fixed-size 2D window of binary pixel values
centered/aligned on that position".  We model the centered 5x5 window at
position `(r, c)`; the spec leaves the image-edge policy to the external
collaborator ("do not guess WindowSource's edge policy"), so we only use
this at positions `2 ≤ r, c ≤ 4`, where the window lies fully inside the
7x7 image and reads only actual image pixels. -/
def windowAt (r c : ℕ) : Window := fun i j =>
  syntheticImage (r - 2 + (i : ℕ)) (c - 2 + (j : ℕ))

/-! ### Claim theorems -/

/-- Claim C1: for every 5x5 binary window and offsets `start_row`,
`start_col` in `[0,5)`, `compute_blob_detection` returns true iff the
sum, over kernel indices `(i,j)` such that
`window[(start_row+i) mod 5][(start_col+j) mod 5]` is set, of
`LOG_FILTER[i][j]` reaches `LOG_RESPONSE_THRESHOLD`; and the single
conditional subtraction computes exactly `(start + i) mod 5` under these
preconditions. -/
theorem blob_detection_threshold_iff (w : Window) (sr sc : Int)
    (hsr : 0 ≤ sr ∧ sr < 5) (hsc : 0 ≤ sc ∧ sc < 5) :
    (compute_blob_detection w sr sc = some true ↔
      LOG_RESPONSE_THRESHOLD ≤ responseSum w sr sc)
    ∧ ∀ i : Fin 5, tapRow sr i = (sr + (i : Int)) % 5
        ∧ tapRow sc i = (sc + (i : Int)) % 5 := by
  constructor
  · rw [compute_eq_responseSum w sr sc hsr hsc]
    simp
  · intro i
    exact ⟨tapRow_eq_mod sr hsr.1 hsr.2 i, tapRow_eq_mod sc hsc.1 hsc.2 i⟩

/-- Witness for C1, at the peak window with offsets `(0,0)`, the wrap
equation instantiated at kernel index 3. -/
theorem blob_detection_threshold_iff_witness :
    (compute_blob_detection peakWindow 0 0 = some true ↔
      LOG_RESPONSE_THRESHOLD ≤ responseSum peakWindow 0 0)
    ∧ (tapRow 0 3 = (0 + ((3 : Fin 5) : Int)) % 5
        ∧ tapRow 0 3 = (0 + ((3 : Fin 5) : Int)) % 5) :=
  ⟨(blob_detection_threshold_iff peakWindow 0 0 (by decide) (by decide)).1,
   (blob_detection_threshold_iff peakWindow 0 0 (by decide) (by decide)).2 3⟩

/-- Claim C2 counterexample: `compute_blob_detection` applied to the
all-ones 5x5 window with offsets `(0,0)` returns false, not true — the
full kernel sum of all 25 weights, including the negative ones, is
`-11 * 2^-14 ≈ -0.00067`, which is below the threshold `0.4900`. -/
theorem all_on_window_not_detected :
    compute_blob_detection allOnesWindow 0 0 = some false := by decide

/-- Claim C2 (amended): for the synthetic 7x7 binary image with one
isolated 5x5 all-on square centered at `(3,3)`, scanning with offsets
`(0,0)` yields true NOWHERE: the all-ones window (the window seen at
`(3,3)`) sums the full kernel table to `-11` (scaled), i.e. `≈ -0.0007`,
below the threshold, so evaluate returns false there, and every other
position whose window lies fully inside the image also stays below
threshold. -/
theorem synthetic_scan_no_detection :
    responseSum allOnesWindow 0 0 = -11
    ∧ compute_blob_detection allOnesWindow 0 0 = some false
    ∧ windowAt 3 3 = allOnesWindow
    ∧ ∀ r c : ℕ, 2 ≤ r → r ≤ 4 → 2 ≤ c → c ≤ 4 →
        compute_blob_detection (windowAt r c) 0 0 = some false := by
  refine ⟨by decide, by decide, ?_, ?_⟩
  · funext i j
    show syntheticImage (1 + (i : ℕ)) (1 + (j : ℕ)) = true
    have hi : (i : ℕ) < 5 := i.isLt
    have hj : (j : ℕ) < 5 := j.isLt
    unfold syntheticImage
    apply decide_eq_true
    omega
  · intro r c h1 h2 h3 h4
    interval_cases r <;> interval_cases c <;> decide

/-- Witness for C2 (amended), at the center position `(3,3)`. -/
theorem synthetic_scan_no_detection_witness :
    compute_blob_detection (windowAt 3 3) 0 0 = some false :=
  synthetic_scan_no_detection.2.2.2 3 3 (by decide) (by decide) (by decide)
    (by decide)

/-- Claim C3 (code bug evaluation): the source type is `ap_fixed<16,2>`,
i.e. total width 16 bits (not 18) with 2 integer bits, hence 14
fractional bits (not 16) and resolution `2^-14` (not `2^-16`).  At the
claimed 16 fractional bits the center weight `0.3182` would be stored as
`20853 * 2^-16`, while the code stores `5213 * 2^-14 = 20852 * 2^-16`:
the two representations differ.  The code here contradicts its own
comments, which document `LOG_NUM_BITS` as "the fractional precision". -/
theorem fixed_point_width_mismatch :
    LOG_NUM_BITS = 16
    ∧ LOG_INTEGER_BITS = 2
    ∧ LOG_FRACTIONAL_ACTUAL = 14
    ∧ LOG_NUM_BITS ≠ 18
    ∧ LOG_FILTER 2 2 = 5213
    ∧ fixOfLitBits 16 (LOG_FILTER_LITS 2 2) = 20853
    ∧ LOG_FILTER 2 2 * 2 ^ 2 ≠ fixOfLitBits 16 (LOG_FILTER_LITS 2 2) := by
  decide

/-- Claim C4 counterexample: with offset `start_row = K = 5` — an
out-of-contract offset the claim says is rejected with an error and no
result — `compute_blob_detection` performs no validation and produces a
result. -/
theorem offset_eq_K_produces_result :
    compute_blob_detection allZeroWindow 5 0 = some false := by decide

/-- At `start_row = 5` the conditional subtraction maps tap `i` to row
`i`, exactly as `start_row = 0` does. -/
lemma tapRow_five (i : Fin 5) : tapRow 5 i = tapRow 0 i := by
  have hi : (i : Int) < 5 := by exact_mod_cast i.isLt
  have hi0 : 0 ≤ (i : Int) := by exact_mod_cast Nat.zero_le i.val
  unfold tapRow
  split <;> split <;> omega

/-- Once an out-of-bounds access has happened, the rest of the loop keeps
the undefined-behavior marker. -/
lemma foldl_blobStep_none (w : Window) (sr sc : Int) :
    ∀ L : List (Fin 5 × Fin 5), L.foldl (blobStep w sr sc) none = none := by
  intro L
  induction L with
  | nil => rfl
  | cons t L ih =>
    rw [List.foldl_cons]
    exact ih

/-- A negative offset makes the very first window access out of bounds. -/
lemma compute_neg_offset_none (w : Window) :
    compute_blob_detection w (-1) 0 = none := by
  have hcons : blobTaps = ((0 : Fin 5), (0 : Fin 5)) :: blobTaps.tail := by
    decide
  have h1 : blobStep w (-1) 0 (some 0) ((0 : Fin 5), (0 : Fin 5)) = none :=
    rfl
  unfold compute_blob_detection
  rw [hcons, List.foldl_cons, h1, foldl_blobStep_none]
  rfl

/-- Claim C4 (amended): `compute_blob_detection` performs no input
validation.  A wrong window dimension cannot arise (the window type is a
fixed 5x5 array); every in-contract input succeeds; the offset
`start_row = K = 5` is NOT rejected — the conditional subtraction maps it
back in bounds, the call behaves exactly like `start_row = 0` and
produces a result; and a negative offset leads to an out-of-bounds window
access (undefined behavior, modelled `none`), not a raised validation
error. -/
theorem no_input_validation (w : Window) (sr sc : Int)
    (hsr : 0 ≤ sr ∧ sr < 5) (hsc : 0 ≤ sc ∧ sc < 5) :
    (compute_blob_detection w sr sc).isSome
    ∧ compute_blob_detection w 5 0 = compute_blob_detection w 0 0
    ∧ (compute_blob_detection w 5 0).isSome
    ∧ compute_blob_detection w (-1) 0 = none := by
  have h00 : (0:Int) ≤ 0 ∧ (0:Int) < 5 := by omega
  have hsome : (compute_blob_detection w sr sc).isSome := by
    rw [compute_eq_responseSum w sr sc hsr hsc]
    rfl
  have hstep : blobStep w 5 0 = blobStep w 0 0 := by
    funext acc t
    unfold blobStep
    rw [tapRow_five t.1]
  have h50 : compute_blob_detection w 5 0 = compute_blob_detection w 0 0 := by
    unfold compute_blob_detection
    rw [hstep]
  refine ⟨hsome, h50, ?_, compute_neg_offset_none w⟩
  rw [h50, compute_eq_responseSum w 0 0 h00 h00]
  rfl

/-- Witness for C4 (amended), at the all-zero window with offsets
`(0,0)`. -/
theorem no_input_validation_witness :
    (compute_blob_detection allZeroWindow 0 0).isSome
    ∧ compute_blob_detection allZeroWindow 5 0 =
        compute_blob_detection allZeroWindow 0 0
    ∧ (compute_blob_detection allZeroWindow 5 0).isSome
    ∧ compute_blob_detection allZeroWindow (-1) 0 = none :=
  no_input_validation allZeroWindow 0 0 (by decide) (by decide)

/-- Claim C5 counterexample: for the peak-match window with offsets
`(0,0)` the response does NOT equal the decimal `0.6874`: the weights are
quantized to 14 fractional bits first, so the response is
`11261 * 2^-14 = 0.68731...`. -/
theorem peak_response_ne_decimal :
    ((responseSum peakWindow 0 0 : ℚ) / 2 ^ 14) ≠ 0.6874 := by
  have h : responseSum peakWindow 0 0 = 11261 := by decide
  rw [h]
  norm_num

/-- Claim C5 (amended): for the peak-match window with offsets `(0,0)`
the response equals the exact sum of the quantized weights,
`5213 + 4 * 1512 = 11261` in scaled units (`11261 * 2^-14 ≈ 0.68732`,
the quantization of `0.3182 + 4 * 0.0923 = 0.6874`), which is at or
above the threshold (`8028 * 2^-14 ≈ 0.48999`), so evaluate returns
true. -/
theorem peak_window_detected :
    responseSum peakWindow 0 0 = 5213 + 4 * 1512
    ∧ LOG_FILTER 2 2 = 5213
    ∧ LOG_FILTER 1 2 = 1512
    ∧ LOG_RESPONSE_THRESHOLD ≤ responseSum peakWindow 0 0
    ∧ compute_blob_detection peakWindow 0 0 = some true := by decide

/-- Claim C6: the all-zero window yields response 0, which is below the
threshold `0.4900`, so evaluate returns false, for every pair of valid
offsets. -/
theorem all_zero_window_rejected (sr sc : Int)
    (hsr : 0 ≤ sr ∧ sr < 5) (hsc : 0 ≤ sc ∧ sc < 5) :
    responseSum allZeroWindow sr sc = 0
    ∧ responseSum allZeroWindow sr sc < LOG_RESPONSE_THRESHOLD
    ∧ compute_blob_detection allZeroWindow sr sc = some false := by
  have h0 : responseSum allZeroWindow sr sc = 0 := by
    apply List.sum_eq_zero
    intro x hx
    obtain ⟨t, _, rfl⟩ := List.mem_map.mp hx
    rfl
  have hthr : LOG_RESPONSE_THRESHOLD = 8028 := by decide
  refine ⟨h0, by omega, ?_⟩
  rw [compute_eq_responseSum allZeroWindow sr sc hsr hsc, h0, hthr]
  rfl

/-- Witness for C6 at offsets `(0,0)`. -/
theorem all_zero_window_rejected_witness :
    responseSum allZeroWindow 0 0 = 0
    ∧ responseSum allZeroWindow 0 0 < LOG_RESPONSE_THRESHOLD
    ∧ compute_blob_detection allZeroWindow 0 0 = some false :=
  all_zero_window_rejected 0 0 (by decide) (by decide)

/-! ### Monotonicity in a single pixel (C7) -/

/-- A window with one pixel overwritten. -/
def setPixel (w : Window) (r c : Fin 5) (b : Bool) : Window :=
  fun a d => if a = r ∧ d = c then b else w a d

/-- Mapped sums split over pointwise addition. -/
lemma listSum_map_add {α : Type} (f g : α → Int) :
    ∀ L : List α, (L.map fun a => f a + g a).sum =
      (L.map f).sum + (L.map g).sum := by
  intro L
  induction L with
  | nil => simp
  | cons a L ih =>
    simp only [List.map_cons, List.sum_cons, ih]
    ring

/-- A constant factors out of a mapped sum. -/
lemma listSum_map_mul {α : Type} (c : Int) (f : α → Int) :
    ∀ L : List α, (L.map fun a => c * f a).sum = c * (L.map f).sum := by
  intro L
  induction L with
  | nil => simp
  | cons a L ih =>
    simp only [List.map_cons, List.sum_cons, ih]
    ring

/-- Every tap pair occurs exactly once in the loop traversal. -/
lemma blobTaps_indicator (p : Fin 5 × Fin 5) :
    (blobTaps.map fun t => if t = p then (1 : Int) else 0).sum = 1 := by
  revert p
  decide

/-- The indicator sum weighted by a constant. -/
lemma blobTaps_single (c : Int) (p : Fin 5 × Fin 5) :
    (blobTaps.map fun t => if t = p then c else 0).sum = c := by
  have h1 : (fun t => if t = p then c else 0) =
      fun t : Fin 5 × Fin 5 => c * (if t = p then (1 : Int) else 0) := by
    funext t
    by_cases h : t = p <;> simp [h]
  rw [h1, listSum_map_mul, blobTaps_indicator, mul_one]

/-- Turning the single pixel read by tap `(i, j)` from 0 to 1 changes
each tap contribution by exactly the indicator of that tap. -/
lemma tapTerm_setPixel (w : Window) (sr sc : Int) (i j : Fin 5)
    (hoff : w (modIdx sr i) (modIdx sc j) = false) (t : Fin 5 × Fin 5) :
    tapTerm (setPixel w (modIdx sr i) (modIdx sc j) true) sr sc t =
      tapTerm w sr sc t + (if t = (i, j) then LOG_FILTER i j else 0) := by
  by_cases ht : t = (i, j)
  · subst ht
    unfold tapTerm setPixel
    simp [hoff]
  · have hpos : ¬(modIdx sr t.1 = modIdx sr i ∧ modIdx sc t.2 = modIdx sc j) := by
      rintro ⟨h1, h2⟩
      exact ht (Prod.ext (modIdx_inj sr t.1 i h1) (modIdx_inj sc t.2 j h2))
    unfold tapTerm setPixel
    rw [if_neg hpos, if_neg ht, add_zero]

/-- Setting the pixel read by tap `(i, j)` adds exactly `LOG_FILTER i j`
to the response. -/
lemma responseSum_setPixel (w : Window) (sr sc : Int) (i j : Fin 5)
    (hoff : w (modIdx sr i) (modIdx sc j) = false) :
    responseSum (setPixel w (modIdx sr i) (modIdx sc j) true) sr sc =
      responseSum w sr sc + LOG_FILTER i j := by
  unfold responseSum
  have hfun : tapTerm (setPixel w (modIdx sr i) (modIdx sc j) true) sr sc =
      fun t => tapTerm w sr sc t +
        (if t = (i, j) then LOG_FILTER i j else 0) :=
    funext (tapTerm_setPixel w sr sc i j hoff)
  rw [hfun, listSum_map_add, blobTaps_single]

/-- Claim C7: the response is monotone in window pixels with respect to
weight sign — for every window, valid offsets, and tap `(i, j)` (whose
window position is `((sr+i) mod 5, (sc+j) mod 5)`), turning that pixel
from 0 to 1 never decreases the response when `LOG_FILTER i j` is
non-negative, and never increases it when the weight is negative. -/
theorem response_pixel_monotone (w : Window) (sr sc : Int)
    (hsr : 0 ≤ sr ∧ sr < 5) (hsc : 0 ≤ sc ∧ sc < 5) (i j : Fin 5)
    (hoff : w (modIdx sr i) (modIdx sc j) = false) :
    (0 ≤ LOG_FILTER i j →
      responseSum w sr sc ≤
        responseSum (setPixel w (modIdx sr i) (modIdx sc j) true) sr sc)
    ∧ (LOG_FILTER i j < 0 →
      responseSum (setPixel w (modIdx sr i) (modIdx sc j) true) sr sc ≤
        responseSum w sr sc) := by
  rw [responseSum_setPixel w sr sc i j hoff]
  constructor <;> intro h <;> omega

/-- Witness for C7: turning on the center pixel (weight `0.3182 ≥ 0`) of
the all-zero window at offsets `(0,0)` does not decrease the response. -/
theorem response_pixel_monotone_witness :
    responseSum allZeroWindow 0 0 ≤
      responseSum (setPixel allZeroWindow (modIdx 0 2) (modIdx 0 2) true) 0 0 :=
  (response_pixel_monotone allZeroWindow 0 0 (by decide) (by decide) 2 2
    (by decide)).1 (by decide)

/-- Claim C8: for every binary window and valid offsets, the accumulator
stays strictly inside the representable range `[-2, 2)` (scaled:
`(-2^15, 2^15)`) at every step: every kernel weight lies in `[-1, 1]`
(scaled: `[-2^14, 2^14]`), every tap contributes at most one weight, and
every partial sum of the accumulation is strictly in range, so the
`AP_WRAP` wrap is the identity throughout (no overflow occurs). -/
theorem response_accumulator_no_overflow (w : Window) (sr sc : Int)
    (hsr : 0 ≤ sr ∧ sr < 5) (hsc : 0 ≤ sc ∧ sc < 5) :
    (∀ i j : Fin 5, -(2 ^ 14) ≤ LOG_FILTER i j ∧ LOG_FILTER i j ≤ 2 ^ 14)
    ∧ (∀ t : Fin 5 × Fin 5, |tapTerm w sr sc t| ≤ |LOG_FILTER t.1 t.2|)
    ∧ ∀ n : Nat,
        -(2 ^ 15) < ((blobTaps.take n).map (tapTerm w sr sc)).sum
        ∧ ((blobTaps.take n).map (tapTerm w sr sc)).sum < 2 ^ 15
        ∧ fixWrap (((blobTaps.take n).map (tapTerm w sr sc)).sum) =
            ((blobTaps.take n).map (tapTerm w sr sc)).sum := by
  refine ⟨by decide, abs_tapTerm_le w sr sc, ?_⟩
  intro n
  have hb := abs_le.mp (partial_sum_bound w sr sc n)
  refine ⟨by omega, by omega, fixWrap_eq_self _ (by omega) (by omega)⟩

/-- Witness for C8: the full 25-tap accumulation over the all-ones window
at offsets `(0,0)` stays in range and is unchanged by the wrap. -/
theorem response_accumulator_no_overflow_witness :
    -(2 ^ 15) < ((blobTaps.take 25).map (tapTerm allOnesWindow 0 0)).sum
    ∧ ((blobTaps.take 25).map (tapTerm allOnesWindow 0 0)).sum < 2 ^ 15
    ∧ fixWrap (((blobTaps.take 25).map (tapTerm allOnesWindow 0 0)).sum) =
        ((blobTaps.take 25).map (tapTerm allOnesWindow 0 0)).sum :=
  (response_accumulator_no_overflow allOnesWindow 0 0 (by decide)
    (by decide)).2.2 25

/-- Claim C9: given offsets in `[0,5)`, every window access of
`compute_blob_detection` is in bounds — each computed row and column
index lies in `[0,5)`, every lookup returns the pixel (never the
out-of-bounds `none` branch), and the whole computation produces a
result. -/
theorem window_accesses_in_bounds (w : Window) (sr sc : Int)
    (hsr : 0 ≤ sr ∧ sr < 5) (hsc : 0 ≤ sc ∧ sc < 5) :
    (∀ i : Fin 5, (0 ≤ tapRow sr i ∧ tapRow sr i < 5)
      ∧ (0 ≤ tapRow sc i ∧ tapRow sc i < 5))
    ∧ (∀ i j : Fin 5, winGet w (tapRow sr i) (tapRow sc j) =
        some (w (modIdx sr i) (modIdx sc j)))
    ∧ (compute_blob_detection w sr sc).isSome := by
  refine ⟨fun i => ⟨tapRow_bounds sr hsr.1 hsr.2 i,
    tapRow_bounds sc hsc.1 hsc.2 i⟩,
    fun i j => winGet_tapRow w sr sc hsr hsc i j, ?_⟩
  rw [compute_eq_responseSum w sr sc hsr hsc]
  rfl

/-- Witness for C9, at the all-ones window with offsets `(4,4)` (where
the wrap correction actually fires), kernel index 3. -/
theorem window_accesses_in_bounds_witness :
    ((0 ≤ tapRow 4 3 ∧ tapRow 4 3 < 5) ∧ (0 ≤ tapRow 4 3 ∧ tapRow 4 3 < 5))
    ∧ winGet allOnesWindow (tapRow 4 3) (tapRow 4 3) =
        some (allOnesWindow (modIdx 4 3) (modIdx 4 3))
    ∧ (compute_blob_detection allOnesWindow 4 4).isSome :=
  ⟨(window_accesses_in_bounds allOnesWindow 4 4 (by decide) (by decide)).1 3,
   (window_accesses_in_bounds allOnesWindow 4 4 (by decide) (by decide)).2.1 3 3,
   (window_accesses_in_bounds allOnesWindow 4 4 (by decide) (by decide)).2.2⟩

/-! ### The offsets only rotate the window (C10) -/

/-- The window cyclically shifted up by `sr` rows and left by `sc`
columns. -/
def shiftWindow (w : Window) (sr sc : Int) : Window :=
  fun i j => w (modIdx sr i) (modIdx sc j)

/-- Claim C10: for valid offsets, evaluating at `(sr, sc)` is the same as
evaluating the cyclically shifted window at offsets `(0, 0)`. -/
theorem offsets_rotate_window (w : Window) (sr sc : Int)
    (hsr : 0 ≤ sr ∧ sr < 5) (hsc : 0 ≤ sc ∧ sc < 5) :
    compute_blob_detection w sr sc =
      compute_blob_detection (shiftWindow w sr sc) 0 0 := by
  have h00 : (0 : Int) ≤ 0 ∧ (0 : Int) < 5 := by omega
  rw [compute_eq_responseSum w sr sc hsr hsc,
    compute_eq_responseSum _ 0 0 h00 h00]
  have hfun : tapTerm (shiftWindow w sr sc) 0 0 = tapTerm w sr sc := by
    funext t
    unfold tapTerm shiftWindow
    rw [modIdx_zero t.1, modIdx_zero t.2]
  unfold responseSum
  rw [hfun]

/-- Witness for C10, at the peak window with offsets `(2, 3)`. -/
theorem offsets_rotate_window_witness :
    compute_blob_detection peakWindow 2 3 =
      compute_blob_detection (shiftWindow peakWindow 2 3) 0 0 :=
  offsets_rotate_window peakWindow 2 3 (by decide) (by decide)
